import Mathlib

/-!
Shallow embedding of `sampling::SamplerT<T, Y>` from `src/Sampling.h`.

The C++ class holds three fields: `mNumSamples : size_t` (the target window
length), `mProcessMap : std::map<size_t, std::function<Y()>>` (the process
registry), and `mSamples : std::vector<T>` (the sample window).  We model
`size_t` as `Nat`, the vector as `List T`, and the map as an association
list with unique keys, keyed by `Nat`.  A `std::function<Y()>` may be null,
so a registry value is `Option (Unit → Y)` with `none` for the null
function.  Computations are modelled as pure functions, so `runProcess`
returns only the computed value; the C++ exceptions `ExcProcNotFound` and
`ExcProcUndefined` become the explicit error type `SamplingExc`, and
`eraseProcess`, which in C++ mutates and then unconditionally throws,
returns the mutated state paired with the thrown error.
-/

/-- The two exceptions of `Sampling.h`: `ExcProcNotFound` and
`ExcProcUndefined`, each carrying the offending index. -/
inductive SamplingExc : Type where
  | procNotFound (index : Nat)
  | procUndefined (index : Nat)
  deriving DecidableEq

/-- Lookup in the association list modelling `std::map` (`find` / `at`). -/
def mapFind {α : Type} : List (Nat × α) → Nat → Option α
  | [], _ => none
  | (k, w) :: t, i => if k = i then some w else mapFind t i

/-- Insert-or-assign, modelling `std::map::operator[]` followed by
assignment (as in `mProcessMap[ index ] = func`). -/
def mapSet {α : Type} : List (Nat × α) → Nat → α → List (Nat × α)
  | [], i, w => [(i, w)]
  | (k, w0) :: t, i, w => if k = i then (i, w) :: t else (k, w0) :: mapSet t i w

/-- Erase a key, modelling `std::map::erase`. -/
def mapErase {α : Type} : List (Nat × α) → Nat → List (Nat × α)
  | [], _ => []
  | (k, w0) :: t, i => if k = i then t else (k, w0) :: mapErase t i

/-- The state of a `sampling::SamplerT<T, Y>` object: its three protected
fields. -/
structure SamplerT (T : Type) (Y : Type) : Type where
  mNumSamples : Nat
  mProcessMap : List (Nat × Option (Unit → Y))
  mSamples : List T

variable {T Y : Type}

/-- Step 1 of `fit`: `if ( mNumSamples < 1 ) { mNumSamples = 1; }`. -/
def clampCap (n : Nat) : Nat :=
  if n < 1 then 1 else n

/-- Step 2 of `fit`: `while ( mSamples.size() > mNumSamples ) {
mSamples.erase( mSamples.begin() ); }` — repeatedly erase the front
element while the window is longer than the target. -/
def trimFront : List T → Nat → List T
  | [], _ => []
  | x :: t, n => if n < (x :: t).length then trimFront t n else x :: t

/-- Step 3 of `fit`: when the window is shorter than the target, insert
`count = mNumSamples - mSamples.size()` default-constructed elements at
the front (`mSamples.insert( mSamples.begin(), count, T() )`). -/
def padFront [Inhabited T] (l : List T) (n : Nat) : List T :=
  if l.length < n then List.replicate (n - l.length) (default : T) ++ l else l

/-- `SamplerT::fit`: clamp the capacity, trim from the front, pad at the
front.  The process map is untouched. -/
def fit [Inhabited T] (s : SamplerT T Y) : SamplerT T Y :=
  { s with
    mNumSamples := clampCap s.mNumSamples
    mSamples := padFront (trimFront s.mSamples (clampCap s.mNumSamples)) (clampCap s.mNumSamples) }

/-- The constructor `SamplerT( size_t numSamples = 2 )`: it stores the
requested capacity verbatim (no clamping) and starts with an empty vector
and an empty map; it does not call `fit`. -/
def mkSamplerT (numSamples : Nat) : SamplerT T Y :=
  { mNumSamples := numSamples, mProcessMap := [], mSamples := [] }

/-- `SamplerT::clearProcesses`. -/
def clearProcesses (s : SamplerT T Y) : SamplerT T Y :=
  { s with mProcessMap := [] }

/-- `SamplerT::eraseProcess`: erase the entry when the key is found, then
unconditionally throw `ExcProcNotFound`.  The mutation survives the
throw, so the result is the updated state paired with the error. -/
def eraseProcess (s : SamplerT T Y) (index : Nat) : SamplerT T Y × SamplingExc :=
  (if (mapFind s.mProcessMap index).isSome then
     { s with mProcessMap := mapErase s.mProcessMap index }
   else s,
   SamplingExc.procNotFound index)

/-- `SamplerT::getProcess`: return the stored `std::function` when the key
is found, otherwise throw `ExcProcNotFound`. -/
def getProcess (s : SamplerT T Y) (index : Nat) : Except SamplingExc (Option (Unit → Y)) :=
  match mapFind s.mProcessMap index with
  | some f => Except.ok f
  | none => Except.error (SamplingExc.procNotFound index)

/-- `SamplerT::setProcess`: insert-or-overwrite at `index`. -/
def setProcess (s : SamplerT T Y) (index : Nat) (func : Option (Unit → Y)) : SamplerT T Y :=
  { s with mProcessMap := mapSet s.mProcessMap index func }

/-- `SamplerT::runProcess`: not found → `ExcProcNotFound`; found but the
stored function is null → `ExcProcUndefined`; otherwise call the function
and return its result. -/
def runProcess (s : SamplerT T Y) (index : Nat) : Except SamplingExc Y :=
  match mapFind s.mProcessMap index with
  | some (some f) => Except.ok (f ())
  | some none => Except.error (SamplingExc.procUndefined index)
  | none => Except.error (SamplingExc.procNotFound index)

/-- `SamplerT::getNumSamples`. -/
def getNumSamples (s : SamplerT T Y) : Nat :=
  s.mNumSamples

/-- `SamplerT::setNumSamples`: store the requested capacity, then `fit`. -/
def setNumSamples [Inhabited T] (s : SamplerT T Y) (numSamples : Nat) : SamplerT T Y :=
  fit { s with mNumSamples := numSamples }

/-- `SamplerT::clearSamples`: `mSamples.clear()`, with no call to `fit`. -/
def clearSamples (s : SamplerT T Y) : SamplerT T Y :=
  { s with mSamples := [] }

/-- `SamplerT::eraseSample`: erase the element at `index` when
`mSamples.size() > index`, otherwise do nothing; no call to `fit`. -/
def eraseSample (s : SamplerT T Y) (index : Nat) : SamplerT T Y :=
  if index < s.mSamples.length then { s with mSamples := s.mSamples.eraseIdx index } else s

/-- `SamplerT::getSamples`. -/
def getSamples (s : SamplerT T Y) : List T :=
  s.mSamples

/-- `SamplerT::insertSample`: `mSamples.insert( mSamples.begin() + index, v )`
followed by `fit`.  The C++ call is well defined only for
`index ≤ mSamples.size()` (`begin() + index` past `end()` is undefined
behaviour), so the embedding returns `none` outside that range. -/
def insertSample [Inhabited T] (s : SamplerT T Y) (index : Nat) (v : T) :
    Option (SamplerT T Y) :=
  if index ≤ s.mSamples.length then
    some (fit { s with mSamples := s.mSamples.take index ++ v :: s.mSamples.drop index })
  else none

/-- `SamplerT::pushBack`: `mSamples.push_back( v )` followed by `fit`. -/
def pushBack [Inhabited T] (s : SamplerT T Y) (v : T) : SamplerT T Y :=
  fit { s with mSamples := s.mSamples ++ [v] }

/-- Push a whole list of values, one `pushBack` at a time. -/
def pushAll [Inhabited T] (s : SamplerT T Y) (l : List T) : SamplerT T Y :=
  l.foldl pushBack s

theorem clampCap_eq_max (n : Nat) : clampCap n = max 1 n := by
  simp only [clampCap]
  split <;> omega

theorem trimFront_eq_drop (l : List T) (n : Nat) :
    trimFront l n = l.drop (l.length - n) := by
  induction l with
  | nil => simp [trimFront]
  | cons x t ih =>
    simp only [trimFront, List.length_cons]
    by_cases h : n < t.length + 1
    · rw [if_pos h, ih, show t.length + 1 - n = (t.length - n) + 1 from by omega,
        List.drop_succ_cons]
    · rw [if_neg h, show t.length + 1 - n = 0 from by omega, List.drop_zero]

theorem fit_mNumSamples [Inhabited T] (s : SamplerT T Y) :
    (fit s).mNumSamples = max 1 s.mNumSamples := by
  simp [fit, clampCap_eq_max]

theorem fit_mProcessMap [Inhabited T] (s : SamplerT T Y) :
    (fit s).mProcessMap = s.mProcessMap := rfl

theorem fit_mSamples [Inhabited T] (s : SamplerT T Y) :
    (fit s).mSamples =
      if max 1 s.mNumSamples ≤ s.mSamples.length then
        s.mSamples.drop (s.mSamples.length - max 1 s.mNumSamples)
      else
        List.replicate (max 1 s.mNumSamples - s.mSamples.length) (default : T) ++ s.mSamples := by
  simp only [fit, clampCap_eq_max, trimFront_eq_drop, padFront]
  by_cases h : max 1 s.mNumSamples ≤ s.mSamples.length
  · have h1 : (s.mSamples.drop (s.mSamples.length - max 1 s.mNumSamples)).length =
        max 1 s.mNumSamples := by
      simp only [List.length_drop]
      omega
    rw [h1, if_neg (lt_irrefl _), if_pos h]
  · have h0 : s.mSamples.length - max 1 s.mNumSamples = 0 := by omega
    rw [h0, List.drop_zero, if_pos (by omega), if_neg h]

theorem fit_length [Inhabited T] (s : SamplerT T Y) :
    (fit s).mSamples.length = max 1 s.mNumSamples := by
  rw [fit_mSamples]
  split
  · simp only [List.length_drop]
    omega
  · simp only [List.length_append, List.length_replicate]
    omega

theorem mapFind_mapSet_self {α : Type} (m : List (Nat × α)) (i : Nat) (w : α) :
    mapFind (mapSet m i w) i = some w := by
  induction m with
  | nil => simp [mapSet, mapFind]
  | cons p t ih =>
    obtain ⟨k, w0⟩ := p
    by_cases h : k = i
    · simp [mapSet, mapFind, h]
    · simp [mapSet, mapFind, h, ih]

theorem mapFind_eq_none_of_not_mem {α : Type} (m : List (Nat × α)) (i : Nat)
    (h : i ∉ m.map Prod.fst) : mapFind m i = none := by
  induction m with
  | nil => rfl
  | cons p t ih =>
    obtain ⟨k, w0⟩ := p
    simp only [List.map_cons, List.mem_cons] at h
    push_neg at h
    have hk : ¬ k = i := by
      intro hk
      exact h.1 hk.symm
    simp [mapFind, hk, ih h.2]

theorem mapErase_of_find_none {α : Type} (m : List (Nat × α)) (i : Nat)
    (h : mapFind m i = none) : mapErase m i = m := by
  induction m with
  | nil => rfl
  | cons p t ih =>
    obtain ⟨k, w0⟩ := p
    by_cases hk : k = i
    · simp [mapFind, hk] at h
    · simp only [mapFind, if_neg hk] at h
      simp [mapErase, hk, ih h]

theorem mapFind_mapErase_of_nodup {α : Type} (m : List (Nat × α)) (i : Nat)
    (h : (m.map Prod.fst).Nodup) : mapFind (mapErase m i) i = none := by
  induction m with
  | nil => rfl
  | cons p t ih =>
    obtain ⟨k, w0⟩ := p
    simp only [List.map_cons, List.nodup_cons] at h
    by_cases hk : k = i
    · subst hk
      simp only [mapErase, if_pos rfl]
      exact mapFind_eq_none_of_not_mem t k h.1
    · simp [mapErase, mapFind, hk, ih h.2]

theorem pushBack_steady [Inhabited T] (s : SamplerT T Y) (v : T) (c : Nat) (hc : 1 ≤ c)
    (h1 : s.mNumSamples = c) (h2 : s.mSamples.length = c) :
    (pushBack s v).mNumSamples = c ∧
    (pushBack s v).mSamples = s.mSamples.drop 1 ++ [v] ∧
    (pushBack s v).mSamples.length = c := by
  have hmax : max 1 c = c := by omega
  refine ⟨?_, ?_, ?_⟩
  · rw [pushBack, fit_mNumSamples]
    simp [h1, hmax]
  · rw [pushBack, fit_mSamples]
    simp only [h1, hmax, List.length_append, h2, List.length_cons, List.length_nil]
    rw [if_pos (by omega), show c + 1 - c = 1 from by omega,
      List.drop_append_of_le_length (by omega)]
  · rw [pushBack, fit_length]
    simp [h1, hmax]

theorem pushAll_steady [Inhabited T] (l : List T) (s : SamplerT T Y) (c : Nat) (hc : 1 ≤ c)
    (h1 : s.mNumSamples = c) (h2 : s.mSamples.length = c) :
    (pushAll s l).mNumSamples = c ∧
    (pushAll s l).mSamples = (s.mSamples ++ l).drop l.length := by
  induction l generalizing s with
  | nil => simp [pushAll, h1]
  | cons v t ih =>
    obtain ⟨k1, k2, k3⟩ := pushBack_steady s v c hc h1 h2
    have step : pushAll s (v :: t) = pushAll (pushBack s v) t := rfl
    obtain ⟨r1, r2⟩ := ih (pushBack s v) k1 k3
    refine ⟨by rw [step, r1], ?_⟩
    rw [step, r2, k2]
    have hs : List.drop 1 s.mSamples ++ [v] = List.drop 1 (s.mSamples ++ [v]) :=
      (List.drop_append_of_le_length (by omega)).symm
    have hs2 : List.drop 1 (s.mSamples ++ [v]) ++ t = List.drop 1 ((s.mSamples ++ [v]) ++ t) :=
      (List.drop_append_of_le_length (by simp)).symm
    rw [hs, hs2, List.drop_drop, Nat.add_comm 1 t.length, List.append_assoc,
      List.singleton_append, List.length_cons]

/-- Claim C2 (confirmed): for every capacity `c ≥ 1` and every `k ≥ 0`,
pushing `c + k` elements via `pushBack` into a freshly constructed buffer
of capacity `c` leaves the window holding exactly the last `c` pushed
elements, in push order (the last `c` of a length `c + k` list is
`l.drop k`). -/
theorem C2_push_window_semantics [Inhabited T] (c k : Nat) (hc : 1 ≤ c) (l : List T)
    (hl : l.length = c + k) :
    (pushAll (mkSamplerT c : SamplerT T Y) l).mSamples = l.drop k := by
  cases l with
  | nil =>
    simp only [List.length_nil] at hl
    omega
  | cons x t =>
    have hclamp : clampCap c = c := by
      simp only [clampCap]
      split <;> omega
    have step : pushAll (mkSamplerT c : SamplerT T Y) (x :: t) =
        pushAll (pushBack (mkSamplerT c) x) t := rfl
    have h1 : (pushBack (mkSamplerT c : SamplerT T Y) x).mNumSamples = c := by
      rw [pushBack, fit_mNumSamples]
      simp only [mkSamplerT]
      omega
    have h2 : (pushBack (mkSamplerT c : SamplerT T Y) x).mSamples =
        List.replicate (c - 1) (default : T) ++ [x] := by
      show padFront (trimFront ([] ++ [x]) (clampCap c)) (clampCap c) =
        List.replicate (c - 1) (default : T) ++ [x]
      rw [hclamp, List.nil_append]
      have htrim : trimFront [x] c = [x] := by
        simp only [trimFront, List.length_cons, List.length_nil]
        rw [if_neg (by omega)]
      rw [htrim, padFront]
      by_cases hcc : 1 < c
      · rw [if_pos (by simpa using hcc)]
        simp
      · have hc1 : c = 1 := by omega
        subst hc1
        simp
    have h3 : (pushBack (mkSamplerT c : SamplerT T Y) x).mSamples.length = c := by
      rw [h2]
      simp only [List.length_append, List.length_replicate, List.length_cons,
        List.length_nil]
      omega
    obtain ⟨r1, r2⟩ := pushAll_steady t (pushBack (mkSamplerT c) x) c hc h1 h3
    have ht : t.length = (c - 1) + k := by
      simp only [List.length_cons] at hl
      omega
    have hdrop := @List.drop_append T (List.replicate (c - 1) (default : T)) ([x] ++ t) k
    rw [List.length_replicate] at hdrop
    rw [step, r2, h2, ht, List.append_assoc, hdrop, List.singleton_append]

/-- Witness for C2: pushing 3 values into a capacity-2 buffer leaves the
last 2 values, in push order. -/
theorem C2_push_window_semantics_witness :
    (pushAll (mkSamplerT 2 : SamplerT Nat Nat) [1, 2, 3]).mSamples = [2, 3] := by
  have h := C2_push_window_semantics (T := Nat) (Y := Nat) 2 1 (by omega) [1, 2, 3] (by decide)
  simpa using h

/-- Claim C3 (confirmed): `runProcess` raises `procNotFound` when no entry
exists at the id, raises `procUndefined` when the entry holds a null
function, and otherwise returns the registered computation's result; in
particular, after `setProcess 5 f` a `runProcess 5` returns the result of
`f`.  Computations are modelled as pure functions, so the single
application `f ()` in `runProcess` is the one invocation. -/
theorem C3_runProcess_spec (s : SamplerT T Y) (i : Nat) :
    (mapFind s.mProcessMap i = none →
      runProcess s i = Except.error (SamplingExc.procNotFound i)) ∧
    (mapFind s.mProcessMap i = some none →
      runProcess s i = Except.error (SamplingExc.procUndefined i)) ∧
    (∀ f : Unit → Y, mapFind s.mProcessMap i = some (some f) →
      runProcess s i = Except.ok (f ())) ∧
    (∀ g : Unit → Y, runProcess (setProcess s 5 (some g)) 5 = Except.ok (g ())) := by
  refine ⟨?_, ?_, ?_, ?_⟩
  · intro h
    simp only [runProcess, h]
  · intro h
    simp only [runProcess, h]
  · intro f h
    simp only [runProcess, h]
  · intro g
    simp only [runProcess, setProcess, mapFind_mapSet_self]

/-- Witness for C3: all three behaviours at concrete registries. -/
theorem C3_runProcess_witness :
    runProcess (setProcess (mkSamplerT 2 : SamplerT Nat Nat) 5 (some (fun _ => 42))) 5 =
      Except.ok 42 ∧
    runProcess (mkSamplerT 2 : SamplerT Nat Nat) 99 =
      Except.error (SamplingExc.procNotFound 99) ∧
    runProcess (setProcess (mkSamplerT 2 : SamplerT Nat Nat) 7 none) 7 =
      Except.error (SamplingExc.procUndefined 7) :=
  ⟨(C3_runProcess_spec (mkSamplerT 2) 5).2.2.2 (fun _ => 42),
   (C3_runProcess_spec (mkSamplerT 2) 99).1 rfl,
   (C3_runProcess_spec (setProcess (mkSamplerT 2) 7 none) 7).2.1 rfl⟩

/-- Claim C4 (confirmed): `setNumSamples` trims from the front when
shrinking — window `[a,b,c,d]` at capacity 4 becomes `[c,d]` after
`setNumSamples 2` — and pads with defaults at the front when growing —
window `[a,b]` at capacity 2 becomes `[default,default,a,b]` after
`setNumSamples 4`. -/
theorem C4_setNumSamples_shrink_grow [Inhabited T] (a b c d : T)
    (m : List (Nat × Option (Unit → Y))) :
    (setNumSamples ({ mNumSamples := 4, mProcessMap := m, mSamples := [a, b, c, d] } :
        SamplerT T Y) 2).mSamples = [c, d] ∧
    (setNumSamples ({ mNumSamples := 2, mProcessMap := m, mSamples := [a, b] } :
        SamplerT T Y) 4).mSamples = [default, default, a, b] := by
  constructor
  · rw [setNumSamples, fit_mSamples, if_pos (by simp)]
    simp
  · rw [setNumSamples, fit_mSamples, if_neg (by simp)]
    simp [List.replicate]

/-- Counterexample to C5: the constructor does not call `fit`, so a buffer
constructed with capacity 3 has an empty window, not 3 default elements. -/
theorem C5_ctor_counterexample :
    (mkSamplerT 3 : SamplerT Nat Nat).mSamples.length = 0 ∧
    (mkSamplerT 3 : SamplerT Nat Nat).mSamples ≠ List.replicate 3 (default : Nat) := by
  constructor
  · rfl
  · decide

/-- Claim C5 as amended: constructing with capacity 3 and performing no
other operation yields an empty window; the window first holds 3
default-valued elements after the first operation that invokes `fit`
(here, `setNumSamples 3`). -/
theorem C5_ctor_empty_amended [Inhabited T] :
    (mkSamplerT 3 : SamplerT T Y).mSamples = [] ∧
    (setNumSamples (mkSamplerT 3 : SamplerT T Y) 3).mSamples =
      List.replicate 3 (default : T) := by
  refine ⟨rfl, ?_⟩
  rw [setNumSamples, fit_mSamples, if_neg (by simp [mkSamplerT])]
  simp [mkSamplerT]

/-- Counterexample to C1: `clearSamples` and `eraseSample` do not call
`fit`, so after them the window length differs from `max 1 capacity`
(here: after two pushes into a capacity-2 buffer, clear leaves length 0
and erase at index 0 leaves length 1, while `max 1 capacity = 2`). -/
theorem C1_invariant_counterexample :
    (clearSamples (pushBack (pushBack (mkSamplerT 2 : SamplerT Nat Nat) 1) 2)).mSamples.length ≠
      max 1 (clearSamples (pushBack (pushBack (mkSamplerT 2 : SamplerT Nat Nat) 1) 2)).mNumSamples ∧
    (eraseSample (pushBack (pushBack (mkSamplerT 2 : SamplerT Nat Nat) 1) 2) 0).mSamples.length ≠
      max 1 (eraseSample (pushBack (pushBack (mkSamplerT 2 : SamplerT Nat Nat) 1) 2) 0).mNumSamples := by
  constructor
  · decide
  · decide

/-- Claim C1 as amended: the length invariant `len = max 1 capacity` is
restored by exactly the operations that invoke `fit` — `pushBack`,
in-range `insertSample`, and `setNumSamples`.  `clearSamples` empties the
window without re-fitting and `eraseSample` of a valid index shortens it
by one without re-fitting, so after those two the invariant can fail
until the next `fit`-invoking operation. -/
theorem C1_fit_ops_invariant_amended [Inhabited T] (s t : SamplerT T Y) (v : T) (i j n : Nat)
    (ht : insertSample s i v = some t) :
    (pushBack s v).mSamples.length = max 1 (pushBack s v).mNumSamples ∧
    (setNumSamples s n).mSamples.length = max 1 (setNumSamples s n).mNumSamples ∧
    t.mSamples.length = max 1 t.mNumSamples ∧
    (clearSamples s).mSamples.length = 0 ∧
    (j < s.mSamples.length → (eraseSample s j).mSamples.length = s.mSamples.length - 1) := by
  refine ⟨?_, ?_, ?_, rfl, ?_⟩
  · rw [pushBack, fit_length, fit_mNumSamples]
    omega
  · rw [setNumSamples, fit_length, fit_mNumSamples]
    omega
  · simp only [insertSample] at ht
    by_cases hi : i ≤ s.mSamples.length
    · rw [if_pos hi] at ht
      injection ht with hteq
      subst hteq
      rw [fit_length, fit_mNumSamples]
      omega
    · rw [if_neg hi] at ht
      exact absurd ht (by simp)
  · intro hj
    simp only [eraseSample]
    rw [if_pos hj]
    exact List.length_eraseIdx_of_lt hj

/-- Witness for the amended C1 at a concrete state: after a push the
invariant holds, and an in-range erase drops the length by one without
refitting. -/
theorem C1_fit_ops_invariant_witness :
    (pushBack (pushBack (mkSamplerT 2 : SamplerT Nat Nat) 7) 9).mSamples.length =
      max 1 (pushBack (pushBack (mkSamplerT 2 : SamplerT Nat Nat) 7) 9).mNumSamples ∧
    (eraseSample (pushBack (mkSamplerT 2 : SamplerT Nat Nat) 7) 0).mSamples.length =
      (pushBack (mkSamplerT 2 : SamplerT Nat Nat) 7).mSamples.length - 1 :=
  ⟨(C1_fit_ops_invariant_amended (pushBack (mkSamplerT 2) 7)
      { mNumSamples := 2, mProcessMap := [], mSamples := [0, 7] } 9 0 0 3 rfl).1,
   (C1_fit_ops_invariant_amended (pushBack (mkSamplerT 2) 7)
      { mNumSamples := 2, mProcessMap := [], mSamples := [0, 7] } 9 0 0 3 rfl).2.2.2.2
     (by decide)⟩

/-- Claim C6 (confirmed): `eraseProcess` removes the entry at the id when
one is present, and signals `procNotFound` regardless; when the id was
present the removal persists (under the unique-key invariant of
`std::map` the id is gone afterwards), and when absent only the error is
raised and the state is unchanged. -/
theorem C6_eraseProcess_spec (s : SamplerT T Y) (i : Nat) :
    (eraseProcess s i).2 = SamplingExc.procNotFound i ∧
    (eraseProcess s i).1.mProcessMap = mapErase s.mProcessMap i ∧
    ((s.mProcessMap.map Prod.fst).Nodup →
      mapFind (eraseProcess s i).1.mProcessMap i = none) ∧
    (mapFind s.mProcessMap i = none → (eraseProcess s i).1 = s) := by
  refine ⟨rfl, ?_, ?_, ?_⟩
  · by_cases h : (mapFind s.mProcessMap i).isSome
    · simp only [eraseProcess, if_pos h]
    · have hnone := Option.not_isSome_iff_eq_none.mp h
      simp only [eraseProcess, if_neg h]
      rw [mapErase_of_find_none _ _ hnone]
  · intro hnd
    by_cases h : (mapFind s.mProcessMap i).isSome
    · simp only [eraseProcess, if_pos h]
      exact mapFind_mapErase_of_nodup _ _ hnd
    · have hnone := Option.not_isSome_iff_eq_none.mp h
      simp only [eraseProcess, if_neg h]
      exact hnone
  · intro hnone
    have h : ¬ (mapFind s.mProcessMap i).isSome := by
      rw [hnone]
      simp
    simp only [eraseProcess, if_neg h]

/-- Witness for C6: with id 5 registered, erasing it both removes the
entry and reports `procNotFound 5`; erasing from an empty registry
reports the error and leaves the state unchanged. -/
theorem C6_eraseProcess_witness :
    (eraseProcess (setProcess (mkSamplerT 2 : SamplerT Nat Nat) 5 (some (fun _ => 42))) 5).2 =
      SamplingExc.procNotFound 5 ∧
    mapFind (eraseProcess (setProcess (mkSamplerT 2 : SamplerT Nat Nat) 5
      (some (fun _ => 42))) 5).1.mProcessMap 5 = none ∧
    (eraseProcess (mkSamplerT 2 : SamplerT Nat Nat) 9).1 = mkSamplerT 2 :=
  ⟨(C6_eraseProcess_spec (setProcess (mkSamplerT 2) 5 (some (fun _ => 42))) 5).1,
   (C6_eraseProcess_spec (setProcess (mkSamplerT 2) 5 (some (fun _ => 42))) 5).2.2.1
     (by decide),
   (C6_eraseProcess_spec (mkSamplerT 2) 9).2.2.2 rfl⟩

/-- Counterexample to C7: the constructor stores the requested capacity
without clamping, so right after `mkSamplerT 0` the observable capacity
is 0, below 1. -/
theorem C7_capacity_counterexample :
    ¬ 1 ≤ getNumSamples (mkSamplerT 0 : SamplerT Nat Nat) := by
  decide

/-- Claim C7 as amended: a `setNumSamples` request is stored as exactly
`max 1 n` — in particular a request below 1 is clamped to exactly 1 by
`fit` — and every `fit`-invoking operation (`setNumSamples`, `pushBack`,
in-range `insertSample`) leaves the observable capacity at least 1; but
construction stores the requested value unclamped, so a buffer
constructed with capacity 0 observes capacity 0 until the first
`fit`-invoking operation. -/
theorem C7_capacity_clamp_amended [Inhabited T] (s t : SamplerT T Y) (n i : Nat) (v : T)
    (ht : insertSample s i v = some t) :
    getNumSamples (setNumSamples s n) = max 1 n ∧
    (n < 1 → getNumSamples (setNumSamples s n) = 1) ∧
    1 ≤ getNumSamples (setNumSamples s n) ∧
    1 ≤ getNumSamples (pushBack s v) ∧
    1 ≤ getNumSamples t ∧
    getNumSamples (mkSamplerT n : SamplerT T Y) = n := by
  refine ⟨?_, ?_, ?_, ?_, ?_, rfl⟩
  · simp only [getNumSamples, setNumSamples, fit_mNumSamples]
  · intro hn
    simp only [getNumSamples, setNumSamples, fit_mNumSamples]
    omega
  · simp only [getNumSamples, setNumSamples, fit_mNumSamples]
    omega
  · simp only [getNumSamples, pushBack, fit_mNumSamples]
    omega
  · simp only [insertSample] at ht
    by_cases hi : i ≤ s.mSamples.length
    · rw [if_pos hi] at ht
      injection ht with hteq
      subst hteq
      simp only [getNumSamples, fit_mNumSamples]
      omega
    · rw [if_neg hi] at ht
      exact absurd ht (by simp)

/-- Witness for the amended C7 at concrete inputs: a capacity-0 buffer
observes capacity 0 (constructor unclamped), a `setNumSamples 0` request
is clamped to exactly 1, and `pushBack` and an in-range `insertSample`
both leave the capacity at least 1. -/
theorem C7_capacity_clamp_witness :
    getNumSamples (setNumSamples (mkSamplerT 0 : SamplerT Nat Nat) 0) = 1 ∧
    1 ≤ getNumSamples (pushBack (mkSamplerT 0 : SamplerT Nat Nat) 7) ∧
    1 ≤ getNumSamples ({ mNumSamples := 1, mProcessMap := [], mSamples := [7] } :
      SamplerT Nat Nat) ∧
    getNumSamples (mkSamplerT 0 : SamplerT Nat Nat) = 0 :=
  ⟨(C7_capacity_clamp_amended (mkSamplerT 0)
      { mNumSamples := 1, mProcessMap := [], mSamples := [7] } 0 0 7 rfl).2.1 (by decide),
   (C7_capacity_clamp_amended (mkSamplerT 0)
      { mNumSamples := 1, mProcessMap := [], mSamples := [7] } 0 0 7 rfl).2.2.2.1,
   (C7_capacity_clamp_amended (mkSamplerT 0)
      { mNumSamples := 1, mProcessMap := [], mSamples := [7] } 0 0 7 rfl).2.2.2.2.1,
   (C7_capacity_clamp_amended (mkSamplerT 0)
      { mNumSamples := 1, mProcessMap := [], mSamples := [7] } 0 0 7 rfl).2.2.2.2.2⟩

/-- Claim C8 (confirmed): `eraseSample` with an index at or past the end
of the window leaves the whole state unchanged and raises no error. -/
theorem C8_eraseSample_lenient (s : SamplerT T Y) (i : Nat)
    (h : s.mSamples.length ≤ i) : eraseSample s i = s := by
  simp only [eraseSample]
  rw [if_neg (by omega)]

/-- Witness for C8: erasing index 5 of a 1-element window is a no-op. -/
theorem C8_eraseSample_witness :
    eraseSample (pushBack (mkSamplerT 1 : SamplerT Nat Nat) 7) 5 =
      pushBack (mkSamplerT 1 : SamplerT Nat Nat) 7 :=
  C8_eraseSample_lenient (pushBack (mkSamplerT 1) 7) 5 (by decide)

/-- Claim C10 (confirmed): the two sub-states are disjointly framed.
Every sample-window operation (`pushBack`, `insertSample`, `eraseSample`,
`clearSamples`, `setNumSamples`) leaves the process map unchanged, and
every registry mutator (`setProcess`, `eraseProcess`, `clearProcesses`)
leaves the samples and the capacity unchanged.  The registry readers
(`getProcess`, `getProcessMap`, `runProcess`) return no modified state in
the embedding, exactly as the C++ bodies never assign to `mSamples` or
`mNumSamples`; the only exception the claim itself carves out is whatever
a registered computation does when `runProcess` invokes it. -/
theorem C10_frame_disjoint [Inhabited T] (s : SamplerT T Y) (v : T) (i j n : Nat)
    (f : Option (Unit → Y)) :
    (pushBack s v).mProcessMap = s.mProcessMap ∧
    ((insertSample s i v).getD s).mProcessMap = s.mProcessMap ∧
    (eraseSample s j).mProcessMap = s.mProcessMap ∧
    (clearSamples s).mProcessMap = s.mProcessMap ∧
    (setNumSamples s n).mProcessMap = s.mProcessMap ∧
    (setProcess s i f).mSamples = s.mSamples ∧
    (setProcess s i f).mNumSamples = s.mNumSamples ∧
    (eraseProcess s i).1.mSamples = s.mSamples ∧
    (eraseProcess s i).1.mNumSamples = s.mNumSamples ∧
    (clearProcesses s).mSamples = s.mSamples ∧
    (clearProcesses s).mNumSamples = s.mNumSamples := by
  refine ⟨rfl, ?_, ?_, rfl, rfl, rfl, rfl, ?_, ?_, rfl, rfl⟩
  · simp only [insertSample]
    by_cases hi : i ≤ s.mSamples.length
    · rw [if_pos hi]
      rfl
    · rw [if_neg hi]
      rfl
  · simp only [eraseSample]
    by_cases hj : j < s.mSamples.length
    · rw [if_pos hj]
    · rw [if_neg hj]
  · by_cases h : (mapFind s.mProcessMap i).isSome <;>
      simp [eraseProcess, h]
  · by_cases h : (mapFind s.mProcessMap i).isSome <;>
      simp [eraseProcess, h]
